import Mathlib

/-!
MacPlatformConfiguration (platform_arm64.go)

A shallow embedding of the Go binding `platform_arm64.go`: the Go-side struct
`MacPlatformConfiguration`, its three functional options, the constructor
`NewMacPlatformConfiguration` and the three accessors.

Conventions of the embedding

* A Go pointer `*T` is an `Option T`; `none` is `nil`.
* The native (Objective-C) side and the Go runtime are explicit state, `World`:
  the host version, the native objects allocated so far, and the ordered log of
  every native call / finalizer registration performed.
* A Go closure `func(*MacPlatformConfiguration)` mutates the struct it is handed
  and may call into the native side; it is a total state transformer on the
  pair (struct, world).
* Everything the file calls but does not define (`macOSAvailable`, `objc.Ptr`,
  `objc.NewPointer`, the native functions of `virtualization_arm64.h`) returns for
  every argument, a nil Go value included, for which `objc.Ptr` yields NULL.
-/

namespace vz

/-- Go `unsafe.Pointer` holding an Objective-C object address; `0` is NULL. -/
abbrev UnsafePointer := Nat

/-- Modelled from the spec: the embedded `pointer` type (package `internal/objc`) is
declared outside `platform_arm64.go`; it is an opaque native handle, here the wrapped
raw address. -/
structure pointer where
  ptr : UnsafePointer
  deriving DecidableEq, Repr

/-- Modelled from the spec: `MacHardwareModel` is declared outside `platform_arm64.go`;
an opaque versioned capability descriptor (an opaque binary blob) behind a native handle. -/
structure MacHardwareModel where
  pointer : Option pointer
  dataRepresentation : List Nat
  deriving DecidableEq, Repr

/-- Modelled from the spec: `MacMachineIdentifier` is declared outside
`platform_arm64.go`; an opaque byte-identity value behind a native handle. -/
structure MacMachineIdentifier where
  pointer : Option pointer
  dataRepresentation : List Nat
  deriving DecidableEq, Repr

/-- Modelled from the spec: `MacAuxiliaryStorage` is declared outside
`platform_arm64.go`; of the persisted resource only its path and the hardware model it
was created with (the model it is bound to) are tracked. -/
structure MacAuxiliaryStorage where
  pointer : Option pointer
  storagePath : List Nat
  boundHardwareModel : Option MacHardwareModel
  deriving DecidableEq, Repr

/-- Modelled from the spec: `basePlatformConfiguration` is declared outside
`platform_arm64.go`; it carries no data of its own. -/
structure basePlatformConfiguration where
  deriving DecidableEq, Repr

/-- The Go struct `MacPlatformConfiguration` (lines 32-40): the two embedded pointers
and the three identity fields. -/
structure MacPlatformConfiguration where
  pointer : Option pointer
  basePlatformConfiguration : Option basePlatformConfiguration
  hardwareModel : Option MacHardwareModel
  machineIdentifier : Option MacMachineIdentifier
  auxiliaryStorage : Option MacAuxiliaryStorage
  deriving DecidableEq, Repr

/-- Go's `error` values this file can return. -/
inductive Error where
  | UnsupportedHostVersion (required actual : Nat)
  deriving DecidableEq, Repr

/-- Modelled from the spec: the native `VZMacPlatformConfiguration` object lives behind
`virtualization_arm64.h`, outside `platform_arm64.go`; it is explicit state with three
slots, where a slot is `none` until the matching native setter has been called on the
object and afterwards holds the raw pointer that was passed. -/
structure VZMacPlatformConfiguration where
  hardwareModel : Option UnsafePointer
  machineIdentifier : Option UnsafePointer
  auxiliaryStorage : Option UnsafePointer
  deriving DecidableEq, Repr

/-- One entry of the log of native effects. -/
inductive Call where
  | newVZMacPlatformConfiguration (result : UnsafePointer)
  | setHardwareModelVZMacPlatformConfiguration (config hardwareModel : UnsafePointer)
  | setMachineIdentifierVZMacPlatformConfiguration (config machineIdentifier : UnsafePointer)
  | setAuxiliaryStorageVZMacPlatformConfiguration (config auxiliaryStorage : UnsafePointer)
  | SetFinalizer (config : UnsafePointer)
  deriving DecidableEq, Repr

/-- Everything outside the Go struct that the code reads or writes: the host's macOS
major version, the native objects (the object at address `i + 1` is `heap[i]`), and the
log of native calls in the order they were made. -/
structure World where
  macOSMajorVersion : Nat
  heap : List VZMacPlatformConfiguration
  trace : List Call
  deriving DecidableEq, Repr

/-- Modelled from the spec: `macOSAvailable` is declared outside `platform_arm64.go`;
it fails with `UnsupportedHostVersion{required, actual}` when the host version is below
the required one and returns `nil` otherwise. -/
def macOSAvailable (version : Nat) (w : World) : Option Error :=
  if w.macOSMajorVersion < version then
    some (Error.UnsupportedHostVersion version w.macOSMajorVersion)
  else none

/-- Go types that embed `*pointer` (the `NSObject` interface of `internal/objc`). -/
class NSObject (α : Type) where
  pointer : α → Option pointer

instance : NSObject MacHardwareModel := ⟨MacHardwareModel.pointer⟩
instance : NSObject MacMachineIdentifier := ⟨MacMachineIdentifier.pointer⟩
instance : NSObject MacAuxiliaryStorage := ⟨MacAuxiliaryStorage.pointer⟩
instance : NSObject MacPlatformConfiguration := ⟨MacPlatformConfiguration.pointer⟩

/-- Modelled from the spec: `objc.NewPointer` is declared outside `platform_arm64.go`;
it wraps a raw native address into a fresh handle. -/
def objc.NewPointer (p : UnsafePointer) : Option pointer := some ⟨p⟩

/-- Modelled from the spec: `objc.Ptr` is declared outside `platform_arm64.go`; it
yields the raw native address behind a Go value, NULL for a value without a handle. -/
def objc.Ptr {α : Type} [NSObject α] (o : Option α) : UnsafePointer :=
  match o with
  | none => 0
  | some x =>
    match NSObject.pointer x with
    | none => 0
    | some p => p.ptr

/-- Append one entry to the log of native effects. -/
def World.log (w : World) (c : Call) : World :=
  { w with trace := w.trace ++ [c] }

/-- Update the native object at address `p`; a message to NULL or to an address that
holds no object changes nothing. -/
def World.update (w : World) (p : UnsafePointer)
    (f : VZMacPlatformConfiguration → VZMacPlatformConfiguration) : World :=
  if p = 0 then w
  else
    match w.heap[p - 1]? with
    | none => w
    | some o => { w with heap := w.heap.set (p - 1) (f o) }

/-- The native object at address `p`, if any. -/
def World.object (w : World) (p : UnsafePointer) : Option VZMacPlatformConfiguration :=
  if p = 0 then none else w.heap[p - 1]?

/-- Modelled from the spec: the native `newVZMacPlatformConfiguration()` is declared in
`virtualization_arm64.h`, outside `platform_arm64.go`; it allocates a fresh object, none
of whose slots has been written, and returns its address. -/
def C.newVZMacPlatformConfiguration (w : World) : UnsafePointer × World :=
  let p := w.heap.length + 1
  (p, { w with heap := w.heap ++ [⟨none, none, none⟩],
               trace := w.trace ++ [Call.newVZMacPlatformConfiguration p] })

/-- Modelled from the spec: the native
`setHardwareModelVZMacPlatformConfiguration(config, hardwareModel)` is declared in
`virtualization_arm64.h`; it writes the hardware-model slot of the object at `config`. -/
def C.setHardwareModelVZMacPlatformConfiguration (config hardwareModel : UnsafePointer)
    (w : World) : World :=
  (w.update config (fun o => { o with hardwareModel := some hardwareModel })).log
    (Call.setHardwareModelVZMacPlatformConfiguration config hardwareModel)

/-- Modelled from the spec: the native
`setMachineIdentifierVZMacPlatformConfiguration(config, machineIdentifier)` is declared in
`virtualization_arm64.h`; it writes the machine-identifier slot of the object at `config`. -/
def C.setMachineIdentifierVZMacPlatformConfiguration (config machineIdentifier : UnsafePointer)
    (w : World) : World :=
  (w.update config (fun o => { o with machineIdentifier := some machineIdentifier })).log
    (Call.setMachineIdentifierVZMacPlatformConfiguration config machineIdentifier)

/-- Modelled from the spec: the native
`setAuxiliaryStorageVZMacPlatformConfiguration(config, auxiliaryStorage)` is declared in
`virtualization_arm64.h`; it writes the auxiliary-storage slot of the object at `config`. -/
def C.setAuxiliaryStorageVZMacPlatformConfiguration (config auxiliaryStorage : UnsafePointer)
    (w : World) : World :=
  (w.update config (fun o => { o with auxiliaryStorage := some auxiliaryStorage })).log
    (Call.setAuxiliaryStorageVZMacPlatformConfiguration config auxiliaryStorage)

/-- Go `runtime.SetFinalizer(platformConfig, ...)`: registers the release finalizer. -/
def runtime.SetFinalizer (self : MacPlatformConfiguration) (w : World) : World :=
  w.log (Call.SetFinalizer (objc.Ptr (some self)))

/-- The Go type `MacPlatformConfigurationOption` (line 45),
`func(*MacPlatformConfiguration)`. -/
abbrev MacPlatformConfigurationOption :=
  MacPlatformConfiguration → World → MacPlatformConfiguration × World

/-- The Go function `WithHardwareModel` (lines 48-53). -/
def WithHardwareModel (m : Option MacHardwareModel) : MacPlatformConfigurationOption :=
  fun mpc w =>
    let mpc := { mpc with hardwareModel := m }
    let w := C.setHardwareModelVZMacPlatformConfiguration (objc.Ptr (some mpc)) (objc.Ptr m) w
    (mpc, w)

/-- The Go function `WithMachineIdentifier` (lines 56-61). -/
def WithMachineIdentifier (m : Option MacMachineIdentifier) : MacPlatformConfigurationOption :=
  fun mpc w =>
    let mpc := { mpc with machineIdentifier := m }
    let w := C.setMachineIdentifierVZMacPlatformConfiguration (objc.Ptr (some mpc)) (objc.Ptr m) w
    (mpc, w)

/-- The Go function `WithAuxiliaryStorage` (lines 64-69). -/
def WithAuxiliaryStorage (m : Option MacAuxiliaryStorage) : MacPlatformConfigurationOption :=
  fun mpc w =>
    let mpc := { mpc with auxiliaryStorage := m }
    let w := C.setAuxiliaryStorageVZMacPlatformConfiguration (objc.Ptr (some mpc)) (objc.Ptr m) w
    (mpc, w)

/-- The loop `for _, optFunc := range opts { optFunc(platformConfig) }` (lines 85-87). -/
def applyOpts : List MacPlatformConfigurationOption → MacPlatformConfiguration → World →
    MacPlatformConfiguration × World
  | [], platformConfig, w => (platformConfig, w)
  | optFunc :: opts, platformConfig, w =>
    let r := optFunc platformConfig w
    applyOpts opts r.1 r.2

/-- The Go function `NewMacPlatformConfiguration` (lines 75-92); the result is the
returned pair `(*MacPlatformConfiguration, error)` and the world after the call. -/
def NewMacPlatformConfiguration (opts : List MacPlatformConfigurationOption) (w : World) :
    (Option MacPlatformConfiguration × Option Error) × World :=
  match macOSAvailable 12 w with
  | some err => ((none, some err), w)
  | none =>
    let r := C.newVZMacPlatformConfiguration w
    let platformConfig : MacPlatformConfiguration :=
      { pointer := objc.NewPointer r.1, basePlatformConfiguration := none,
        hardwareModel := none, machineIdentifier := none, auxiliaryStorage := none }
    let s := applyOpts opts platformConfig r.2
    let w := runtime.SetFinalizer s.1 s.2
    ((some s.1, none), w)

/-- The Go method `HardwareModel` (line 95). -/
def MacPlatformConfiguration.HardwareModel (m : MacPlatformConfiguration) :
    Option MacHardwareModel := m.hardwareModel

/-- The Go method `MachineIdentifier` (lines 98-100). -/
def MacPlatformConfiguration.MachineIdentifier (m : MacPlatformConfiguration) :
    Option MacMachineIdentifier := m.machineIdentifier

/-- The Go method `AuxiliaryStorage` (line 103). -/
def MacPlatformConfiguration.AuxiliaryStorage (m : MacPlatformConfiguration) :
    Option MacAuxiliaryStorage := m.auxiliaryStorage

/-- A call of one of the three option constructors of this file, with its argument. -/
inductive OptionCall where
  | hardwareModel (m : Option MacHardwareModel)
  | machineIdentifier (m : Option MacMachineIdentifier)
  | auxiliaryStorage (m : Option MacAuxiliaryStorage)
  deriving DecidableEq, Repr

/-- The option value the call builds. -/
def OptionCall.build : OptionCall → MacPlatformConfigurationOption
  | .hardwareModel m => WithHardwareModel m
  | .machineIdentifier m => WithMachineIdentifier m
  | .auxiliaryStorage m => WithAuxiliaryStorage m

/-- The arguments of the `WithHardwareModel` calls of a list, in order of occurrence. -/
def hardwareModelArgs (l : List OptionCall) : List (Option MacHardwareModel) :=
  l.filterMap fun o =>
    match o with
    | .hardwareModel m => some m
    | _ => none

/-- The arguments of the `WithMachineIdentifier` calls of a list, in order of occurrence. -/
def machineIdentifierArgs (l : List OptionCall) : List (Option MacMachineIdentifier) :=
  l.filterMap fun o =>
    match o with
    | .machineIdentifier m => some m
    | _ => none

/-- The arguments of the `WithAuxiliaryStorage` calls of a list, in order of occurrence. -/
def auxiliaryStorageArgs (l : List OptionCall) : List (Option MacAuxiliaryStorage) :=
  l.filterMap fun o =>
    match o with
    | .auxiliaryStorage m => some m
    | _ => none

/-- Whether the argument of the call is a non-nil pointer. -/
def OptionCall.argNonNil : OptionCall → Bool
  | .hardwareModel m => m.isSome
  | .machineIdentifier m => m.isSome
  | .auxiliaryStorage m => m.isSome

/-- Whether a log entry is an allocation of a native object. -/
def Call.isNew : Call → Bool
  | .newVZMacPlatformConfiguration _ => true
  | _ => false

/-- A native slot agrees with a Go field: it has not been written, or it holds the raw
pointer of the field's value. -/
def slotAgrees (slot : Option UnsafePointer) (p : UnsafePointer) : Prop :=
  slot = none ∨ slot = some p

/-- The Go struct `c` and its native object are in sync in world `w`: the native object
exists, and each of its slots that has been written holds the raw pointer of the value
the matching accessor of `c` returns. -/
def InSync (c : MacPlatformConfiguration) (w : World) : Prop :=
  match w.object (objc.Ptr (some c)) with
  | none => False
  | some o =>
    slotAgrees o.hardwareModel (objc.Ptr c.HardwareModel) ∧
    slotAgrees o.machineIdentifier (objc.Ptr c.MachineIdentifier) ∧
    slotAgrees o.auxiliaryStorage (objc.Ptr c.AuxiliaryStorage)

/-- The fresh Go struct built at lines 80-84 around the native address `p`. -/
def freshConfig (p : UnsafePointer) : MacPlatformConfiguration :=
  { pointer := objc.NewPointer p, basePlatformConfiguration := none,
    hardwareModel := none, machineIdentifier := none, auxiliaryStorage := none }

/-! ## Concrete values used to instantiate the statements -/

/-- A hardware model. -/
def exampleModelA : MacHardwareModel := ⟨some ⟨101⟩, [1]⟩

/-- A hardware model different from `exampleModelA`. -/
def exampleModelB : MacHardwareModel := ⟨some ⟨102⟩, [2]⟩

/-- A machine identifier. -/
def exampleIdentifier : MacMachineIdentifier := ⟨some ⟨201⟩, [7, 7]⟩

/-- An auxiliary storage created with (bound to) `exampleModelB`. -/
def exampleStorage : MacAuxiliaryStorage := ⟨some ⟨301⟩, [47, 116], some exampleModelB⟩

/-- A host running macOS 12 on which nothing native has happened yet. -/
def hostMonterey : World := ⟨12, [], []⟩

/-- A host running macOS 11 on which nothing native has happened yet. -/
def hostBigSur : World := ⟨11, [], []⟩

/-! ## Basic facts about the constructor and the option loop -/

theorem NewMacPlatformConfiguration_unsupported (opts : List MacPlatformConfigurationOption)
    (w : World) (err : Error) (h : macOSAvailable 12 w = some err) :
    NewMacPlatformConfiguration opts w = ((none, some err), w) := by
  simp [NewMacPlatformConfiguration, h]

theorem NewMacPlatformConfiguration_supported (opts : List MacPlatformConfigurationOption)
    (w : World) (h : macOSAvailable 12 w = none) :
    NewMacPlatformConfiguration opts w =
      ((some (applyOpts opts (freshConfig (w.heap.length + 1))
          (C.newVZMacPlatformConfiguration w).2).1, none),
        runtime.SetFinalizer
          (applyOpts opts (freshConfig (w.heap.length + 1))
            (C.newVZMacPlatformConfiguration w).2).1
          (applyOpts opts (freshConfig (w.heap.length + 1))
            (C.newVZMacPlatformConfiguration w).2).2) := by
  simp [NewMacPlatformConfiguration, h, freshConfig, C.newVZMacPlatformConfiguration]

theorem applyOpts_eq_foldl (opts : List MacPlatformConfigurationOption)
    (c : MacPlatformConfiguration) (w : World) :
    applyOpts opts c w = opts.foldl (fun s optFunc => optFunc s.1 s.2) (c, w) := by
  induction opts generalizing c w with
  | nil => rfl
  | cons x xs ih => simp [applyOpts, ih]

theorem build_pointer (o : OptionCall) (c : MacPlatformConfiguration) (w : World) :
    (o.build c w).1.pointer = c.pointer ∧
      (o.build c w).1.basePlatformConfiguration = c.basePlatformConfiguration := by
  cases o <;> simp [OptionCall.build, WithHardwareModel, WithMachineIdentifier,
    WithAuxiliaryStorage]

theorem applyOpts_build_pointer (l : List OptionCall) (c : MacPlatformConfiguration)
    (w : World) :
    (applyOpts (l.map OptionCall.build) c w).1.pointer = c.pointer := by
  induction l generalizing c w with
  | nil => rfl
  | cons o l ih => simp [applyOpts, ih, (build_pointer o c w).1]

theorem applyOpts_build_hardwareModel (l : List OptionCall) (c : MacPlatformConfiguration)
    (w : World) :
    (applyOpts (l.map OptionCall.build) c w).1.hardwareModel =
      (hardwareModelArgs l).getLastD c.hardwareModel := by
  induction l generalizing c w with
  | nil => rfl
  | cons o l ih =>
    have step : applyOpts ((o :: l).map OptionCall.build) c w =
        applyOpts (l.map OptionCall.build) (o.build c w).1 (o.build c w).2 := rfl
    rw [step, ih]
    cases o <;> simp only [hardwareModelArgs, List.filterMap_cons, List.getLastD_cons] <;> rfl

theorem applyOpts_build_machineIdentifier (l : List OptionCall)
    (c : MacPlatformConfiguration) (w : World) :
    (applyOpts (l.map OptionCall.build) c w).1.machineIdentifier =
      (machineIdentifierArgs l).getLastD c.machineIdentifier := by
  induction l generalizing c w with
  | nil => rfl
  | cons o l ih =>
    have step : applyOpts ((o :: l).map OptionCall.build) c w =
        applyOpts (l.map OptionCall.build) (o.build c w).1 (o.build c w).2 := rfl
    rw [step, ih]
    cases o <;> simp only [machineIdentifierArgs, List.filterMap_cons, List.getLastD_cons] <;> rfl

theorem applyOpts_build_auxiliaryStorage (l : List OptionCall)
    (c : MacPlatformConfiguration) (w : World) :
    (applyOpts (l.map OptionCall.build) c w).1.auxiliaryStorage =
      (auxiliaryStorageArgs l).getLastD c.auxiliaryStorage := by
  induction l generalizing c w with
  | nil => rfl
  | cons o l ih =>
    have step : applyOpts ((o :: l).map OptionCall.build) c w =
        applyOpts (l.map OptionCall.build) (o.build c w).1 (o.build c w).2 := rfl
    rw [step, ih]
    cases o <;> simp only [auxiliaryStorageArgs, List.filterMap_cons, List.getLastD_cons] <;> rfl

/-! ## The native side -/

theorem World.object_update (w : World) (p : UnsafePointer)
    (f : VZMacPlatformConfiguration → VZMacPlatformConfiguration)
    (o : VZMacPlatformConfiguration) (h : w.object p = some o) :
    (w.update p f).object p = some (f o) := by
  unfold World.object at h
  by_cases hp : p = 0
  · simp [hp] at h
  · simp only [hp, if_false] at h
    have hlt : p - 1 < w.heap.length := by
      rcases Nat.lt_or_ge (p - 1) w.heap.length with hlt | hge
      · exact hlt
      · rw [List.getElem?_eq_none hge] at h
        cases h
    simp [World.object, World.update, hp, h, List.getElem?_set_self hlt]

theorem World.update_heap_length (w : World) (p : UnsafePointer)
    (f : VZMacPlatformConfiguration → VZMacPlatformConfiguration) :
    (w.update p f).heap.length = w.heap.length := by
  unfold World.update
  split
  · rfl
  · split <;> simp

theorem World.update_trace (w : World) (p : UnsafePointer)
    (f : VZMacPlatformConfiguration → VZMacPlatformConfiguration) :
    (w.update p f).trace = w.trace := by
  unfold World.update
  split
  · rfl
  · split <;> rfl

theorem build_heap_length (o : OptionCall) (c : MacPlatformConfiguration) (w : World) :
    (o.build c w).2.heap.length = w.heap.length := by
  cases o <;> exact World.update_heap_length _ _ _

theorem build_trace_new (o : OptionCall) (c : MacPlatformConfiguration) (w : World) :
    (o.build c w).2.trace.filter Call.isNew = w.trace.filter Call.isNew := by
  cases o <;>
    simp [OptionCall.build, WithHardwareModel, WithMachineIdentifier, WithAuxiliaryStorage,
      C.setHardwareModelVZMacPlatformConfiguration,
      C.setMachineIdentifierVZMacPlatformConfiguration,
      C.setAuxiliaryStorageVZMacPlatformConfiguration, World.log, World.update_trace,
      Call.isNew]

theorem applyOpts_build_heap_length (l : List OptionCall) (c : MacPlatformConfiguration)
    (w : World) :
    (applyOpts (l.map OptionCall.build) c w).2.heap.length = w.heap.length := by
  induction l generalizing c w with
  | nil => rfl
  | cons o l ih =>
    have step : applyOpts ((o :: l).map OptionCall.build) c w =
        applyOpts (l.map OptionCall.build) (o.build c w).1 (o.build c w).2 := rfl
    rw [step, ih, build_heap_length]

theorem applyOpts_build_trace_new (l : List OptionCall) (c : MacPlatformConfiguration)
    (w : World) :
    (applyOpts (l.map OptionCall.build) c w).2.trace.filter Call.isNew =
      w.trace.filter Call.isNew := by
  induction l generalizing c w with
  | nil => rfl
  | cons o l ih =>
    have step : applyOpts ((o :: l).map OptionCall.build) c w =
        applyOpts (l.map OptionCall.build) (o.build c w).1 (o.build c w).2 := rfl
    rw [step, ih, build_trace_new]

theorem build_inSync (o : OptionCall) (c : MacPlatformConfiguration) (w : World)
    (h : InSync c w) : InSync (o.build c w).1 (o.build c w).2 := by
  unfold InSync at h
  split at h
  · exact h.elim
  · next obj hobj =>
    obtain ⟨h1, h2, h3⟩ := h
    cases o with
    | hardwareModel m =>
      have e : (WithHardwareModel m c w).2.object
          (objc.Ptr (some (WithHardwareModel m c w).1)) =
          some { obj with hardwareModel := some (objc.Ptr m) } :=
        World.object_update w _ _ obj hobj
      simp only [InSync, OptionCall.build, e]
      exact ⟨Or.inr rfl, h2, h3⟩
    | machineIdentifier m =>
      have e : (WithMachineIdentifier m c w).2.object
          (objc.Ptr (some (WithMachineIdentifier m c w).1)) =
          some { obj with machineIdentifier := some (objc.Ptr m) } :=
        World.object_update w _ _ obj hobj
      simp only [InSync, OptionCall.build, e]
      exact ⟨h1, Or.inr rfl, h3⟩
    | auxiliaryStorage m =>
      have e : (WithAuxiliaryStorage m c w).2.object
          (objc.Ptr (some (WithAuxiliaryStorage m c w).1)) =
          some { obj with auxiliaryStorage := some (objc.Ptr m) } :=
        World.object_update w _ _ obj hobj
      simp only [InSync, OptionCall.build, e]
      exact ⟨h1, h2, Or.inr rfl⟩

theorem applyOpts_build_inSync (l : List OptionCall) (c : MacPlatformConfiguration)
    (w : World) (h : InSync c w) :
    InSync (applyOpts (l.map OptionCall.build) c w).1
      (applyOpts (l.map OptionCall.build) c w).2 := by
  induction l generalizing c w with
  | nil => exact h
  | cons o l ih => exact ih _ _ (build_inSync o c w h)

theorem fresh_inSync (w : World) :
    InSync (freshConfig (w.heap.length + 1)) (C.newVZMacPlatformConfiguration w).2 := by
  simp [InSync, World.object, freshConfig, objc.Ptr, objc.NewPointer, NSObject.pointer,
    C.newVZMacPlatformConfiguration, slotAgrees]

theorem setFinalizer_inSync (c self : MacPlatformConfiguration) (w : World)
    (h : InSync c w) : InSync c (runtime.SetFinalizer self w) := h

/-! ## The claims -/

/-- C1: when `macOSAvailable(12)` returns an error - which it does when the host macOS
major version is below 12 - `NewMacPlatformConfiguration(opts...)` returns that error
together with a nil configuration, for every list of options. -/
theorem C1_unsupported_host_error_and_nil (opts : List MacPlatformConfigurationOption)
    (w : World) :
    (∀ err, macOSAvailable 12 w = some err →
      (NewMacPlatformConfiguration opts w).1 = (none, some err)) ∧
    (w.macOSMajorVersion < 12 →
      (NewMacPlatformConfiguration opts w).1 =
        (none, some (Error.UnsupportedHostVersion 12 w.macOSMajorVersion))) := by
  constructor
  · intro err h
    rw [NewMacPlatformConfiguration_unsupported opts w err h]
  · intro h
    have e : macOSAvailable 12 w =
        some (Error.UnsupportedHostVersion 12 w.macOSMajorVersion) := by
      simp [macOSAvailable, h]
    rw [NewMacPlatformConfiguration_unsupported opts w _ e]

theorem C1_unsupported_host_error_and_nil_witness :
    hostBigSur.macOSMajorVersion < 12 ∧
    macOSAvailable 12 hostBigSur = some (Error.UnsupportedHostVersion 12 11) ∧
    (NewMacPlatformConfiguration
        [WithHardwareModel (some exampleModelA), WithAuxiliaryStorage (some exampleStorage)]
        hostBigSur).1 = (none, some (Error.UnsupportedHostVersion 12 11)) :=
  ⟨by decide, by decide,
    (C1_unsupported_host_error_and_nil
      [WithHardwareModel (some exampleModelA), WithAuxiliaryStorage (some exampleStorage)]
      hostBigSur).1 _ (by decide)⟩

/-- C2: on a supported host, for every triple (h, i, a), the configuration built from the
three options `WithHardwareModel(h)`, `WithMachineIdentifier(i)`, `WithAuxiliaryStorage(a)`
given in any order has `HardwareModel() = h`, `MachineIdentifier() = i` and
`AuxiliaryStorage() = a`, and the constructor returns it with a nil error. -/
theorem C2_accessors_echo_inputs (h : Option MacHardwareModel)
    (i : Option MacMachineIdentifier) (a : Option MacAuxiliaryStorage) (w : World)
    (hw : macOSAvailable 12 w = none) (l : List OptionCall)
    (hl : l.Perm [.hardwareModel h, .machineIdentifier i, .auxiliaryStorage a]) :
    ∃ c, (NewMacPlatformConfiguration (l.map OptionCall.build) w).1 = (some c, none) ∧
      c.HardwareModel = h ∧ c.MachineIdentifier = i ∧ c.AuxiliaryStorage = a := by
  have p1 : (hardwareModelArgs l).Perm
      (hardwareModelArgs [.hardwareModel h, .machineIdentifier i, .auxiliaryStorage a]) :=
    hl.filterMap _
  have p2 : (machineIdentifierArgs l).Perm
      (machineIdentifierArgs [.hardwareModel h, .machineIdentifier i, .auxiliaryStorage a]) :=
    hl.filterMap _
  have p3 : (auxiliaryStorageArgs l).Perm
      (auxiliaryStorageArgs [.hardwareModel h, .machineIdentifier i, .auxiliaryStorage a]) :=
    hl.filterMap _
  have e1 : hardwareModelArgs l = [h] := List.perm_singleton.mp p1
  have e2 : machineIdentifierArgs l = [i] := List.perm_singleton.mp p2
  have e3 : auxiliaryStorageArgs l = [a] := List.perm_singleton.mp p3
  rw [NewMacPlatformConfiguration_supported _ _ hw]
  refine ⟨_, rfl, ?_, ?_, ?_⟩
  · unfold MacPlatformConfiguration.HardwareModel
    rw [applyOpts_build_hardwareModel, e1]
    rfl
  · unfold MacPlatformConfiguration.MachineIdentifier
    rw [applyOpts_build_machineIdentifier, e2]
    rfl
  · unfold MacPlatformConfiguration.AuxiliaryStorage
    rw [applyOpts_build_auxiliaryStorage, e3]
    rfl

theorem C2_accessors_echo_inputs_witness :
    macOSAvailable 12 hostMonterey = none ∧
    ∃ c, (NewMacPlatformConfiguration
        [WithAuxiliaryStorage (some exampleStorage), WithHardwareModel (some exampleModelA),
          WithMachineIdentifier (some exampleIdentifier)] hostMonterey).1 = (some c, none) ∧
      c.HardwareModel = some exampleModelA ∧ c.MachineIdentifier = some exampleIdentifier ∧
      c.AuxiliaryStorage = some exampleStorage :=
  ⟨by decide,
    C2_accessors_echo_inputs (some exampleModelA) (some exampleIdentifier)
      (some exampleStorage) hostMonterey (by decide)
      [.auxiliaryStorage (some exampleStorage), .hardwareModel (some exampleModelA),
        .machineIdentifier (some exampleIdentifier)]
      (List.perm_append_comm :
        ([OptionCall.auxiliaryStorage (some exampleStorage)] ++
          [OptionCall.hardwareModel (some exampleModelA),
            OptionCall.machineIdentifier (some exampleIdentifier)]).Perm
        ([OptionCall.hardwareModel (some exampleModelA),
            OptionCall.machineIdentifier (some exampleIdentifier)] ++
          [OptionCall.auxiliaryStorage (some exampleStorage)]))⟩

/-- C3: on a supported host the constructor applies its options in the order given: for
every option list the returned configuration and the world are the left fold of the options
over the fresh configuration (followed by the finalizer registration); and for options
built by the three constructors each accessor returns the argument of the last occurrence
of its option in the list, and nil when its option does not occur. -/
theorem C3_options_applied_in_order_last_write_wins (w : World)
    (hw : macOSAvailable 12 w = none) :
    (∀ opts : List MacPlatformConfigurationOption,
      NewMacPlatformConfiguration opts w =
        ((some (opts.foldl (fun s optFunc => optFunc s.1 s.2)
            (freshConfig (w.heap.length + 1), (C.newVZMacPlatformConfiguration w).2)).1, none),
          runtime.SetFinalizer
            (opts.foldl (fun s optFunc => optFunc s.1 s.2)
              (freshConfig (w.heap.length + 1), (C.newVZMacPlatformConfiguration w).2)).1
            (opts.foldl (fun s optFunc => optFunc s.1 s.2)
              (freshConfig (w.heap.length + 1), (C.newVZMacPlatformConfiguration w).2)).2)) ∧
    (∀ l : List OptionCall,
      ∃ c, (NewMacPlatformConfiguration (l.map OptionCall.build) w).1 = (some c, none) ∧
        c.HardwareModel = (hardwareModelArgs l).getLastD none ∧
        c.MachineIdentifier = (machineIdentifierArgs l).getLastD none ∧
        c.AuxiliaryStorage = (auxiliaryStorageArgs l).getLastD none) := by
  constructor
  · intro opts
    rw [NewMacPlatformConfiguration_supported _ _ hw, applyOpts_eq_foldl]
  · intro l
    rw [NewMacPlatformConfiguration_supported _ _ hw]
    refine ⟨_, rfl, ?_, ?_, ?_⟩
    · exact applyOpts_build_hardwareModel l _ _
    · exact applyOpts_build_machineIdentifier l _ _
    · exact applyOpts_build_auxiliaryStorage l _ _

theorem C3_options_applied_in_order_last_write_wins_witness :
    macOSAvailable 12 hostMonterey = none ∧
    ∃ c, (NewMacPlatformConfiguration
        [WithHardwareModel (some exampleModelA), WithMachineIdentifier (some exampleIdentifier),
          WithHardwareModel (some exampleModelB)] hostMonterey).1 = (some c, none) ∧
      c.HardwareModel = some exampleModelB ∧
      c.MachineIdentifier = some exampleIdentifier ∧
      c.AuxiliaryStorage = none :=
  ⟨by decide,
    (C3_options_applied_in_order_last_write_wins hostMonterey (by decide)).2
      [.hardwareModel (some exampleModelA), .machineIdentifier (some exampleIdentifier),
        .hardwareModel (some exampleModelB)]⟩

/-- C4: when the host version check fails the constructor does nothing else: for every
option list the world after the call is the world before it, so no option was applied, no
native object was created, no native setter was called and no finalizer was registered -
the log of native effects of the call is empty. -/
theorem C4_failed_check_has_no_effects (opts : List MacPlatformConfigurationOption)
    (w : World) (err : Error) (h : macOSAvailable 12 w = some err) :
    (NewMacPlatformConfiguration opts w).2 = w ∧
    (NewMacPlatformConfiguration opts w).2.trace.drop w.trace.length = [] ∧
    (NewMacPlatformConfiguration opts w).2.heap = w.heap := by
  rw [NewMacPlatformConfiguration_unsupported opts w err h]
  simp

theorem C4_failed_check_has_no_effects_witness :
    macOSAvailable 12 hostBigSur = some (Error.UnsupportedHostVersion 12 11) ∧
    (NewMacPlatformConfiguration
        [WithHardwareModel (some exampleModelA), WithMachineIdentifier (some exampleIdentifier),
          WithAuxiliaryStorage (some exampleStorage)] hostBigSur).2.trace = [] :=
  ⟨by decide,
    (C4_failed_check_has_no_effects
      [WithHardwareModel (some exampleModelA), WithMachineIdentifier (some exampleIdentifier),
        WithAuxiliaryStorage (some exampleStorage)] hostBigSur
      (Error.UnsupportedHostVersion 12 11) (by decide)).2.1⟩

/-- C5: for every already-constructed configuration `c` (in any world) and every argument
`x`, applying `WithHardwareModel(x)`, `WithMachineIdentifier(x)` or
`WithAuxiliaryStorage(x)` to `c` makes the corresponding accessor return `x`: the accessors
read the live field, whatever the field held at construction time. -/
theorem C5_accessor_reflects_latest_option (c : MacPlatformConfiguration) (w : World) :
    (∀ x, (WithHardwareModel x c w).1.HardwareModel = x) ∧
    (∀ x, (WithMachineIdentifier x c w).1.MachineIdentifier = x) ∧
    (∀ x, (WithAuxiliaryStorage x c w).1.AuxiliaryStorage = x) :=
  ⟨fun _ => rfl, fun _ => rfl, fun _ => rfl⟩

/-- C8: each option writes only its own field: `WithHardwareModel(x)` leaves
`machineIdentifier`, `auxiliaryStorage` and the two embedded pointers of the struct
unchanged, and symmetrically for `WithMachineIdentifier` and `WithAuxiliaryStorage`;
hence two options that target different fields commute on the Go-side state. -/
theorem C8_option_writes_only_its_field (c : MacPlatformConfiguration) (w : World) :
    (∀ x, (WithHardwareModel x c w).1 = { c with hardwareModel := x }) ∧
    (∀ x, (WithMachineIdentifier x c w).1 = { c with machineIdentifier := x }) ∧
    (∀ x, (WithAuxiliaryStorage x c w).1 = { c with auxiliaryStorage := x }) ∧
    (∀ x,
      (WithHardwareModel x c w).1.machineIdentifier = c.machineIdentifier ∧
      (WithHardwareModel x c w).1.auxiliaryStorage = c.auxiliaryStorage ∧
      (WithHardwareModel x c w).1.pointer = c.pointer ∧
      (WithHardwareModel x c w).1.basePlatformConfiguration = c.basePlatformConfiguration) ∧
    (∀ x,
      (WithMachineIdentifier x c w).1.hardwareModel = c.hardwareModel ∧
      (WithMachineIdentifier x c w).1.auxiliaryStorage = c.auxiliaryStorage ∧
      (WithMachineIdentifier x c w).1.pointer = c.pointer ∧
      (WithMachineIdentifier x c w).1.basePlatformConfiguration =
        c.basePlatformConfiguration) ∧
    (∀ x,
      (WithAuxiliaryStorage x c w).1.hardwareModel = c.hardwareModel ∧
      (WithAuxiliaryStorage x c w).1.machineIdentifier = c.machineIdentifier ∧
      (WithAuxiliaryStorage x c w).1.pointer = c.pointer ∧
      (WithAuxiliaryStorage x c w).1.basePlatformConfiguration =
        c.basePlatformConfiguration) ∧
    (∀ x y, (applyOpts [WithHardwareModel x, WithMachineIdentifier y] c w).1 =
      (applyOpts [WithMachineIdentifier y, WithHardwareModel x] c w).1) ∧
    (∀ x y, (applyOpts [WithHardwareModel x, WithAuxiliaryStorage y] c w).1 =
      (applyOpts [WithAuxiliaryStorage y, WithHardwareModel x] c w).1) ∧
    (∀ x y, (applyOpts [WithMachineIdentifier x, WithAuxiliaryStorage y] c w).1 =
      (applyOpts [WithAuxiliaryStorage y, WithMachineIdentifier x] c w).1) :=
  ⟨fun _ => rfl, fun _ => rfl, fun _ => rfl,
    fun _ => ⟨rfl, rfl, rfl, rfl⟩, fun _ => ⟨rfl, rfl, rfl, rfl⟩,
    fun _ => ⟨rfl, rfl, rfl, rfl⟩, fun _ _ => rfl, fun _ _ => rfl, fun _ _ => rfl⟩

/-- C6 fails on the code: `exampleStorage` was created with `exampleModelB`, which differs
from `exampleModelA`, yet on a supported host building with `WithHardwareModel(exampleModelA)`
and `WithAuxiliaryStorage(exampleStorage)` returns a nil error and a configuration. -/
theorem C6_counterexample :
    exampleStorage.boundHardwareModel = some exampleModelB ∧
    exampleModelB ≠ exampleModelA ∧
    macOSAvailable 12 hostMonterey = none ∧
    (NewMacPlatformConfiguration
        [WithHardwareModel (some exampleModelA), WithAuxiliaryStorage (some exampleStorage)]
        hostMonterey).1 =
      (some { pointer := some ⟨1⟩, basePlatformConfiguration := none,
              hardwareModel := some exampleModelA, machineIdentifier := none,
              auxiliaryStorage := some exampleStorage }, none) := by
  decide

/-- C6 as amended: the constructor never compares the hardware model with the model the
auxiliary storage is bound to. On a supported host, for every `h` and every `a` (whatever
model `a` is bound to) and all further options, building with `WithHardwareModel(h)`,
`WithAuxiliaryStorage(a)`, ... returns a nil error and a configuration, whose
`HardwareModel()` is `h` and `AuxiliaryStorage()` is `a` unless a further option sets the
field again; only on an unsupported host does it return an error (the host-version error)
and a nil configuration. -/
theorem C6_no_model_compatibility_check (h : Option MacHardwareModel)
    (a : Option MacAuxiliaryStorage) (rest : List OptionCall) (w : World) :
    (macOSAvailable 12 w = none →
      ∃ c, (NewMacPlatformConfiguration
          (WithHardwareModel h :: WithAuxiliaryStorage a :: rest.map OptionCall.build) w).1 =
          (some c, none) ∧
        (hardwareModelArgs rest = [] → c.HardwareModel = h) ∧
        (auxiliaryStorageArgs rest = [] → c.AuxiliaryStorage = a)) ∧
    (∀ err, macOSAvailable 12 w = some err →
      (NewMacPlatformConfiguration
        (WithHardwareModel h :: WithAuxiliaryStorage a :: rest.map OptionCall.build) w).1 =
        (none, some err)) := by
  constructor
  · intro hw
    have e : WithHardwareModel h :: WithAuxiliaryStorage a :: rest.map OptionCall.build =
        (OptionCall.hardwareModel h :: OptionCall.auxiliaryStorage a :: rest).map
          OptionCall.build := rfl
    rw [e, NewMacPlatformConfiguration_supported _ _ hw]
    refine ⟨_, rfl, ?_, ?_⟩
    · intro hr
      unfold MacPlatformConfiguration.HardwareModel
      rw [applyOpts_build_hardwareModel]
      have : hardwareModelArgs
          (OptionCall.hardwareModel h :: OptionCall.auxiliaryStorage a :: rest) =
          h :: hardwareModelArgs rest := rfl
      rw [this, hr]
      rfl
    · intro hr
      unfold MacPlatformConfiguration.AuxiliaryStorage
      rw [applyOpts_build_auxiliaryStorage]
      have : auxiliaryStorageArgs
          (OptionCall.hardwareModel h :: OptionCall.auxiliaryStorage a :: rest) =
          a :: auxiliaryStorageArgs rest := rfl
      rw [this, hr]
      rfl
  · intro err he
    rw [NewMacPlatformConfiguration_unsupported _ w err he]

theorem C6_no_model_compatibility_check_witness :
    macOSAvailable 12 hostMonterey = none ∧
    hardwareModelArgs [.machineIdentifier (some exampleIdentifier)] = [] ∧
    auxiliaryStorageArgs [.machineIdentifier (some exampleIdentifier)] = [] ∧
    ∃ c, (NewMacPlatformConfiguration
        [WithHardwareModel (some exampleModelA), WithAuxiliaryStorage (some exampleStorage),
          WithMachineIdentifier (some exampleIdentifier)] hostMonterey).1 = (some c, none) ∧
      c.HardwareModel = some exampleModelA ∧ c.AuxiliaryStorage = some exampleStorage :=
  ⟨by decide, by decide, by decide,
    match (C6_no_model_compatibility_check (some exampleModelA) (some exampleStorage)
        [.machineIdentifier (some exampleIdentifier)] hostMonterey).1 (by decide) with
    | ⟨c, hc, h1, h2⟩ => ⟨c, hc, h1 (by decide), h2 (by decide)⟩⟩

/-- C7 fails on the code: on a supported host an option list without
`WithMachineIdentifier` and without `WithAuxiliaryStorage` still yields a nil error and a
configuration, whose two unset accessors return nil. -/
theorem C7_counterexample :
    macOSAvailable 12 hostMonterey = none ∧
    (NewMacPlatformConfiguration [WithHardwareModel (some exampleModelA)] hostMonterey).1 =
      (some { pointer := some ⟨1⟩, basePlatformConfiguration := none,
              hardwareModel := some exampleModelA, machineIdentifier := none,
              auxiliaryStorage := none }, none) := by
  decide

/-- C7 as amended: the constructor does not validate the presence of the three fields. On
a supported host, for every list of options built by the three constructors with non-nil
arguments - also one in which `WithHardwareModel`, `WithMachineIdentifier` or
`WithAuxiliaryStorage` is absent - it returns a nil error and a configuration, in which the
accessor of every absent option returns nil. Nothing is stated about an option that is
given a nil argument. -/
theorem C7_no_presence_validation (l : List OptionCall) (w : World)
    (hw : macOSAvailable 12 w = none) (_hnn : ∀ o ∈ l, o.argNonNil = true) :
    ∃ c, (NewMacPlatformConfiguration (l.map OptionCall.build) w).1 = (some c, none) ∧
      (hardwareModelArgs l = [] → c.HardwareModel = none) ∧
      (machineIdentifierArgs l = [] → c.MachineIdentifier = none) ∧
      (auxiliaryStorageArgs l = [] → c.AuxiliaryStorage = none) := by
  rw [NewMacPlatformConfiguration_supported _ _ hw]
  refine ⟨_, rfl, ?_, ?_, ?_⟩
  · intro hr
    unfold MacPlatformConfiguration.HardwareModel
    rw [applyOpts_build_hardwareModel, hr]
    rfl
  · intro hr
    unfold MacPlatformConfiguration.MachineIdentifier
    rw [applyOpts_build_machineIdentifier, hr]
    rfl
  · intro hr
    unfold MacPlatformConfiguration.AuxiliaryStorage
    rw [applyOpts_build_auxiliaryStorage, hr]
    rfl

theorem C7_no_presence_validation_witness :
    macOSAvailable 12 hostMonterey = none ∧
    (∀ o ∈ [OptionCall.auxiliaryStorage (some exampleStorage),
        OptionCall.hardwareModel (some exampleModelB)], o.argNonNil = true) ∧
    machineIdentifierArgs [.auxiliaryStorage (some exampleStorage),
      .hardwareModel (some exampleModelB)] = [] ∧
    ∃ c, (NewMacPlatformConfiguration
        [WithAuxiliaryStorage (some exampleStorage), WithHardwareModel (some exampleModelB)]
        hostMonterey).1 = (some c, none) ∧
      c.MachineIdentifier = none :=
  ⟨by decide, by decide, by decide,
    match C7_no_presence_validation
        [.auxiliaryStorage (some exampleStorage), .hardwareModel (some exampleModelB)]
        hostMonterey (by decide) (by decide) with
    | ⟨c, hc, _, h2, _⟩ => ⟨c, hc, h2 (by decide)⟩⟩

/-- C9: the Go-side fields and the native object stay in sync. On a supported host, for
every list of options (built by the three constructors) applied by the constructor, and
every further list applied to the returned configuration afterwards, the native object of
the configuration exists and each of its slots that has been written holds the raw pointer
of the value the matching accessor returns. This is because every option issues exactly
one native call, the matching setter, on the same configuration with the argument it
stores in the field, and on a configuration in sync that call writes the slot. -/
theorem C9_native_slots_in_sync (w : World) (l later : List OptionCall) :
    (macOSAvailable 12 w = none →
      ∃ c, (NewMacPlatformConfiguration (l.map OptionCall.build) w).1 = (some c, none) ∧
        InSync c (NewMacPlatformConfiguration (l.map OptionCall.build) w).2 ∧
        InSync
          (applyOpts (later.map OptionCall.build) c
            (NewMacPlatformConfiguration (l.map OptionCall.build) w).2).1
          (applyOpts (later.map OptionCall.build) c
            (NewMacPlatformConfiguration (l.map OptionCall.build) w).2).2) ∧
    (∀ c w0 m, (WithHardwareModel m c w0).2.trace = w0.trace ++
      [Call.setHardwareModelVZMacPlatformConfiguration (objc.Ptr (some c))
        (objc.Ptr (WithHardwareModel m c w0).1.HardwareModel)]) ∧
    (∀ c w0 m, (WithMachineIdentifier m c w0).2.trace = w0.trace ++
      [Call.setMachineIdentifierVZMacPlatformConfiguration (objc.Ptr (some c))
        (objc.Ptr (WithMachineIdentifier m c w0).1.MachineIdentifier)]) ∧
    (∀ c w0 m, (WithAuxiliaryStorage m c w0).2.trace = w0.trace ++
      [Call.setAuxiliaryStorageVZMacPlatformConfiguration (objc.Ptr (some c))
        (objc.Ptr (WithAuxiliaryStorage m c w0).1.AuxiliaryStorage)]) ∧
    (∀ c w0 m, InSync c w0 →
      ∃ o, (WithHardwareModel m c w0).2.object (objc.Ptr (some c)) = some o ∧
        o.hardwareModel = some (objc.Ptr (WithHardwareModel m c w0).1.HardwareModel)) ∧
    (∀ c w0 m, InSync c w0 →
      ∃ o, (WithMachineIdentifier m c w0).2.object (objc.Ptr (some c)) = some o ∧
        o.machineIdentifier =
          some (objc.Ptr (WithMachineIdentifier m c w0).1.MachineIdentifier)) ∧
    (∀ c w0 m, InSync c w0 →
      ∃ o, (WithAuxiliaryStorage m c w0).2.object (objc.Ptr (some c)) = some o ∧
        o.auxiliaryStorage =
          some (objc.Ptr (WithAuxiliaryStorage m c w0).1.AuxiliaryStorage)) := by
  refine ⟨?_, ?_, ?_, ?_, ?_, ?_, ?_⟩
  · intro hw
    rw [NewMacPlatformConfiguration_supported _ _ hw]
    have h0 := applyOpts_build_inSync l _ _ (fresh_inSync w)
    have h1 := setFinalizer_inSync _
      (applyOpts (l.map OptionCall.build) (freshConfig (w.heap.length + 1))
        (C.newVZMacPlatformConfiguration w).2).1 _ h0
    exact ⟨_, rfl, h1, applyOpts_build_inSync later _ _ h1⟩
  · intro c w0 m
    simp [WithHardwareModel, C.setHardwareModelVZMacPlatformConfiguration, World.log,
      World.update_trace, MacPlatformConfiguration.HardwareModel, objc.Ptr, NSObject.pointer]
  · intro c w0 m
    simp [WithMachineIdentifier, C.setMachineIdentifierVZMacPlatformConfiguration, World.log,
      World.update_trace, MacPlatformConfiguration.MachineIdentifier, objc.Ptr,
      NSObject.pointer]
  · intro c w0 m
    simp [WithAuxiliaryStorage, C.setAuxiliaryStorageVZMacPlatformConfiguration, World.log,
      World.update_trace, MacPlatformConfiguration.AuxiliaryStorage, objc.Ptr,
      NSObject.pointer]
  · intro c w0 m h
    unfold InSync at h
    split at h
    · exact h.elim
    · next obj hobj =>
      exact ⟨_, World.object_update w0 _ _ obj hobj, rfl⟩
  · intro c w0 m h
    unfold InSync at h
    split at h
    · exact h.elim
    · next obj hobj =>
      exact ⟨_, World.object_update w0 _ _ obj hobj, rfl⟩
  · intro c w0 m h
    unfold InSync at h
    split at h
    · exact h.elim
    · next obj hobj =>
      exact ⟨_, World.object_update w0 _ _ obj hobj, rfl⟩

theorem C9_native_slots_in_sync_witness :
    macOSAvailable 12 hostMonterey = none ∧
    ∃ c, (NewMacPlatformConfiguration
        [WithHardwareModel (some exampleModelA), WithAuxiliaryStorage (some exampleStorage)]
        hostMonterey).1 = (some c, none) ∧
      InSync c (NewMacPlatformConfiguration
        [WithHardwareModel (some exampleModelA), WithAuxiliaryStorage (some exampleStorage)]
        hostMonterey).2 ∧
      InSync
        (applyOpts [WithHardwareModel (some exampleModelB)] c
          (NewMacPlatformConfiguration
            [WithHardwareModel (some exampleModelA),
              WithAuxiliaryStorage (some exampleStorage)] hostMonterey).2).1
        (applyOpts [WithHardwareModel (some exampleModelB)] c
          (NewMacPlatformConfiguration
            [WithHardwareModel (some exampleModelA),
              WithAuxiliaryStorage (some exampleStorage)] hostMonterey).2).2 :=
  ⟨by decide,
    (C9_native_slots_in_sync hostMonterey
      [.hardwareModel (some exampleModelA), .auxiliaryStorage (some exampleStorage)]
      [.hardwareModel (some exampleModelB)]).1 (by decide)⟩

/-- C10: on a supported host the constructor never fails: for every option list, the
empty one included, it returns a nil error and a non-nil configuration; for options built
by the three constructors the configuration is backed by exactly one freshly created
native object (an address that held no object before the call, the only allocation the
call logs); with the empty option list all three accessors return nil. Hence the
constructor returns an error if and only if the host version check fails. -/
theorem C10_supported_host_never_fails (w : World) :
    (macOSAvailable 12 w = none →
      (∀ opts : List MacPlatformConfigurationOption,
        ∃ c, (NewMacPlatformConfiguration opts w).1 = (some c, none)) ∧
      (∀ l : List OptionCall,
        ∃ c, (NewMacPlatformConfiguration (l.map OptionCall.build) w).1 = (some c, none) ∧
          objc.Ptr (some c) = w.heap.length + 1 ∧
          w.object (w.heap.length + 1) = none ∧
          ((NewMacPlatformConfiguration (l.map OptionCall.build) w).2.object
            (w.heap.length + 1)).isSome = true ∧
          (NewMacPlatformConfiguration (l.map OptionCall.build) w).2.heap.length =
            w.heap.length + 1 ∧
          (NewMacPlatformConfiguration (l.map OptionCall.build) w).2.trace.filter Call.isNew =
            w.trace.filter Call.isNew ++
              [Call.newVZMacPlatformConfiguration (w.heap.length + 1)]) ∧
      (∃ c, (NewMacPlatformConfiguration [] w).1 = (some c, none) ∧
        c.HardwareModel = none ∧ c.MachineIdentifier = none ∧ c.AuxiliaryStorage = none)) ∧
    (∀ opts : List MacPlatformConfigurationOption,
      (NewMacPlatformConfiguration opts w).1.2 ≠ none ↔ macOSAvailable 12 w ≠ none) := by
  constructor
  · intro hw
    refine ⟨?_, ?_, ?_⟩
    · intro opts
      rw [NewMacPlatformConfiguration_supported _ _ hw]
      exact ⟨_, rfl⟩
    · intro l
      rw [NewMacPlatformConfiguration_supported _ _ hw]
      have hlen : (runtime.SetFinalizer
          (applyOpts (l.map OptionCall.build) (freshConfig (w.heap.length + 1))
            (C.newVZMacPlatformConfiguration w).2).1
          (applyOpts (l.map OptionCall.build) (freshConfig (w.heap.length + 1))
            (C.newVZMacPlatformConfiguration w).2).2).heap.length = w.heap.length + 1 := by
        show (applyOpts (l.map OptionCall.build) (freshConfig (w.heap.length + 1))
            (C.newVZMacPlatformConfiguration w).2).2.heap.length = w.heap.length + 1
        rw [applyOpts_build_heap_length]
        simp [C.newVZMacPlatformConfiguration]
      refine ⟨_, rfl, ?_, ?_, ?_, hlen, ?_⟩
      · simp [objc.Ptr, NSObject.pointer, applyOpts_build_pointer, freshConfig,
          objc.NewPointer]
      · simp [World.object]
      · have hlt : w.heap.length < (runtime.SetFinalizer
          (applyOpts (l.map OptionCall.build) (freshConfig (w.heap.length + 1))
            (C.newVZMacPlatformConfiguration w).2).1
          (applyOpts (l.map OptionCall.build) (freshConfig (w.heap.length + 1))
            (C.newVZMacPlatformConfiguration w).2).2).heap.length := by
          rw [hlen]
          exact Nat.lt_succ_self _
        simp [World.object, List.getElem?_eq_getElem hlt]
      · show ((applyOpts (l.map OptionCall.build) (freshConfig (w.heap.length + 1))
            (C.newVZMacPlatformConfiguration w).2).2.trace ++ [_]).filter Call.isNew = _
        rw [List.filter_append, applyOpts_build_trace_new]
        simp [C.newVZMacPlatformConfiguration, Call.isNew, objc.Ptr]
    · rw [NewMacPlatformConfiguration_supported _ _ hw]
      exact ⟨_, rfl, rfl, rfl, rfl⟩
  · intro opts
    cases hm : macOSAvailable 12 w with
    | none =>
      rw [NewMacPlatformConfiguration_supported _ _ hm]
    | some err =>
      rw [NewMacPlatformConfiguration_unsupported _ _ err hm]

theorem C10_supported_host_never_fails_witness :
    macOSAvailable 12 hostMonterey = none ∧
    ∃ c, (NewMacPlatformConfiguration [] hostMonterey).1 = (some c, none) ∧
      c.HardwareModel = none ∧ c.MachineIdentifier = none ∧ c.AuxiliaryStorage = none :=
  ⟨by decide, ((C10_supported_host_never_fails hostMonterey).1 (by decide)).2.2⟩

end vz
